import Mathlib

/-!
Shallow embedding of the CustomRedux library (src/src/index.js: `createStore`,
`combineReducers`; README's `Connect` helper: `shallowEqual`).

The store holds an application state of an arbitrary type `σ`, an ordered list
of listeners (identified by `Nat` tags standing for JavaScript function
identity), and is driven by `dispatch`.  JavaScript dynamic typing is embedded
by an inductive `Act` of dispatched values classified by their `typeof` tag,
and a `MWVal` of possible middleware arguments classified by truthiness.
`dispatch` is instrumented: besides the updated store it records the listeners
notified (in order) and the arguments of every reducer invocation, so that
notification order and "reducer receives the action exactly once" facts are
plain equations.
-/

set_option autoImplicit false

namespace CustomRedux

/-- JavaScript value supplied as the `middleware` argument of `createStore`.
The source only tests it for truthiness (`if (middleware && ...)`) and never
calls it, so only the `typeof`-level shape matters. -/
inductive MWVal where
  | undefv
  | nullv
  | boolv (b : Bool)
  | numv (n : Int)
  | strv (s : String)
  | funv (ref : Nat)
  | objv (ref : Nat)
deriving DecidableEq

/-- JavaScript truthiness of a middleware value. -/
def truthy : MWVal → Bool
  | .undefv => false
  | .nullv => false
  | .boolv b => b
  | .numv n => n != 0
  | .strv s => s != ""
  | .funv _ => true
  | .objv _ => true

/-- The `typeof` tag of a primitive (non-object, non-function, non-null)
JavaScript value. -/
inductive PrimTag where
  | number
  | string
  | boolean
  | undefinedTag
  | symbol
  | bigint
deriving DecidableEq

/-- The string `typeof` yields on a primitive of the given tag. -/
def PrimTag.name : PrimTag → String
  | .number => "number"
  | .string => "string"
  | .boolean => "boolean"
  | .undefinedTag => "undefined"
  | .symbol => "symbol"
  | .bigint => "bigint"

/-- Behaviour of a function action (a thunk): the plain object actions it
dispatches through the `dispatch` callback it receives, in order (each given
by its `type` field, `none` meaning `undefined`, and an identity tag), and
whether it finally returns `getState()` or returns `undefined`. -/
structure ThunkBody where
  dispatches : List (Option String × Nat)
  returnState : Bool
deriving DecidableEq

/-- A JavaScript value passed to `dispatch`, classified the way the source
distinguishes values: by `typeof` and by the `type` own property of objects.
`obj t i` is a non-null object whose `type` property reads `t` (`none` for
`undefined`) with identity tag `i`; `nullv` is `null` (note
`typeof null === 'object'`); `fn` is a function; `prim` is any other
primitive. -/
inductive Act where
  | obj (type : Option String) (id : Nat)
  | nullv
  | fn (body : ThunkBody)
  | prim (tag : PrimTag)
deriving DecidableEq

/-- The `typeof` operator on a dispatched value. -/
def typeofAct : Act → String
  | .obj _ _ => "object"
  | .nullv => "object"
  | .fn _ => "function"
  | .prim tag => tag.name

/-- The synchronous failures `dispatch` can raise. -/
inductive Err where
  | invalidActionShape
  | missingActionType
  | typeError
deriving DecidableEq

/-- The message carried by each failure: the two `throw new Error(...)` sites
of the source, and the host-level `TypeError` raised when `action.type` is
read off `null`. -/
def Err.message : Err → String
  | .invalidActionShape => "Action should be plain object"
  | .missingActionType => "Action must have a type"
  | .typeError => "Cannot read properties of null (reading 'type')"

/-- The value a successful `dispatch` returns: the original action on the
plain path, or whatever the function action returned on the middleware path
(`getState()` or `undefined` in our thunk model). -/
inductive DispatchRet (σ : Type) where
  | retAction (a : Act)
  | retState (s : σ)
  | retUndef
deriving DecidableEq

/-- Outcome of a `dispatch` call: thrown error or returned value. -/
inductive DRes (σ : Type) where
  | thrown (e : Err)
  | ok (r : DispatchRet σ)
deriving DecidableEq

/-- The store's private mutable data: `currentState` and the listener list
(listeners identified by `Nat` tags; JavaScript compares them by function
identity). -/
structure St (σ : Type) where
  currentState : σ
  listeners : List Nat
deriving DecidableEq

/-- `getState` of the source: returns the current state. -/
def getState {σ : Type} (st : St σ) : σ :=
  st.currentState

/-- `subscribe` of the source: `listeners.push(listener)` appends
unconditionally. -/
def subscribe {σ : Type} (st : St σ) (listener : Nat) : St σ :=
  { st with listeners := st.listeners ++ [listener] }

/-- The unsubscribe closure returned by `subscribe`:
`listeners = listeners.filter(item => item !== listener)`. -/
def unSubscribe {σ : Type} (st : St σ) (listener : Nat) : St σ :=
  { st with listeners := st.listeners.filter (fun item => item != listener) }

/-- Instrumented result of one `dispatch` call: the store afterwards, the
listener tags notified in order, the `(state, action)` argument pairs of every
reducer invocation in order, and the outcome. -/
structure DOut (σ : Type) where
  store : St σ
  notified : List Nat
  reducerCalls : List (σ × Act)
  ret : DRes σ
deriving DecidableEq

/-- The body of `dispatch` after the middleware test (src/store.js lines
68-79): throw `InvalidActionShape` when `typeof action !== 'object'` (this
includes functions and primitives), a host `TypeError` when the action is
`null` (reading `action.type`), `MissingActionType` when the `type` property
is `undefined`; otherwise run the reducer, replace the state, notify every
listener in order and return the action.  A throw happens before the state is
replaced, so on every error the store is returned unchanged. -/
def dispatchPlain {σ : Type} (red : σ → Act → σ) (st : St σ) (a : Act) : DOut σ :=
  match a with
  | .fn _ => ⟨st, [], [], .thrown .invalidActionShape⟩
  | .prim _ => ⟨st, [], [], .thrown .invalidActionShape⟩
  | .nullv => ⟨st, [], [], .thrown .typeError⟩
  | .obj none _ => ⟨st, [], [], .thrown .missingActionType⟩
  | .obj (some t) i =>
    ⟨⟨red st.currentState (.obj (some t) i), st.listeners⟩,
      st.listeners,
      [(st.currentState, .obj (some t) i)],
      .ok (.retAction (.obj (some t) i))⟩

/-- Effect of the inner `dispatch` calls a function action performs when it is
invoked with `(dispatch, getState)`: each dispatched plain object goes through
the plain path; an error thrown by an inner dispatch propagates and aborts the
remaining ones, keeping whatever state changes already happened. -/
def runCmds {σ : Type} (red : σ → Act → σ) (st : St σ) :
    List (Option String × Nat) → Option Err × DOut σ
  | [] => (none, ⟨st, [], [], .ok .retUndef⟩)
  | c :: rest =>
    let d := dispatchPlain red st (Act.obj c.1 c.2)
    match d.ret with
    | .thrown e => (some e, d)
    | .ok _ =>
      let r := runCmds red d.store rest
      (r.1, ⟨r.2.store, d.notified ++ r.2.notified,
        d.reducerCalls ++ r.2.reducerCalls, r.2.ret⟩)

/-- `dispatch` of the source (src/store.js lines 62-80).  When the middleware
argument is truthy and the action is a function, the action is invoked with
`(dispatch, getState)` and its result is returned directly; every other value
goes down the plain path. -/
def dispatch {σ : Type} (mw : MWVal) (red : σ → Act → σ) (st : St σ) (a : Act) : DOut σ :=
  match a with
  | .fn b =>
    if truthy mw then
      let r := runCmds red st b.dispatches
      match r.1 with
      | some e => ⟨r.2.store, r.2.notified, r.2.reducerCalls, .thrown e⟩
      | none =>
        ⟨r.2.store, r.2.notified, r.2.reducerCalls,
          .ok (if b.returnState then .retState r.2.store.currentState else .retUndef)⟩
    else dispatchPlain red st (.fn b)
  | _ => dispatchPlain red st a

/-- The reserved initialization action `{ type: '@INIT' }`. -/
def initAction : Act :=
  .obj (some "@INIT") 0

/-- `createStore` (src/store.js lines 43-90): current state starts as
`initialState`, the listener list starts empty, and `{ type: '@INIT' }` is
dispatched once before the store is returned.  The instrumented output of
that single construction-time dispatch is returned; its `store` field is the
store handed to the caller. -/
def createStore {σ : Type} (mw : MWVal) (red : σ → Act → σ) (initialState : σ) : DOut σ :=
  dispatch mw red ⟨initialState, []⟩ initAction

/-! ## Reducer composer (`combineReducers`, src/store.js lines 34-41)

Object allocation is made explicit so that freshness of the returned mapping
is expressible: a `JSObj` carries the reference it was allocated at, and the
composed reducer threads a fresh-reference counter, consuming one reference
per call for `let newStore = {}`. -/

/-- A JavaScript object for the reducer-composer model: its allocation
reference and its own enumerable fields in insertion order; a field value
`none` embeds `undefined`. -/
structure JSObj (V : Type) where
  ref : Nat
  fields : List (String × Option V)
deriving DecidableEq

/-- Property read `o[k]`: the stored value when the key is present,
`undefined` when absent. -/
def readField {V : Type} (o : JSObj V) (k : String) : Option V :=
  match o.fields.find? (fun p => p.1 == k) with
  | some p => p.2
  | none => none

/-- Whether `k` is an own property of the state object. -/
def hasField {V : Type} (o : JSObj V) (k : String) : Bool :=
  o.fields.any (fun p => p.1 == k)

/-- The reducer built by `combineReducers(reducers)`: on each call it
allocates a fresh `newStore = {}` (consuming the reference `alloc`), fills
`newStore[item] = reducers[item](state[item], action)` for every key of
`reducers` in order, and returns the new object together with the advanced
allocation counter. -/
def combineReducers {V A : Type} (reducers : List (String × (Option V → A → Option V)))
    (state : JSObj V) (action : A) (alloc : Nat) : JSObj V × Nat :=
  (⟨alloc, reducers.map (fun p => (p.1, p.2 (readField state p.1) action))⟩, alloc + 1)

/-! ## Shallow equality (`shallowEqual` of the Connect helper) -/

/-- A JavaScript value as compared by the Connect helper's shallow-equality
check: primitives carry their value, functions their identity reference, and
objects their identity reference together with their own enumerable fields in
order. -/
inductive JV where
  | num (n : Int)
  | str (s : String)
  | boolv (b : Bool)
  | undefv
  | nullv
  | funv (ref : Nat)
  | objv (ref : Nat) (fields : List (String × JV))

/-- `Object.is`: value identity on primitives, reference identity on objects
and functions. -/
def jsIs : JV → JV → Bool
  | .num a, .num b => a == b
  | .str a, .str b => a == b
  | .boolv a, .boolv b => a == b
  | .undefv, .undefv => true
  | .nullv, .nullv => true
  | .funv r, .funv s => r == s
  | .objv r _, .objv s _ => r == s
  | _, _ => false

/-- The `typeof` operator on a compared value. -/
def typeofJV : JV → String
  | .num _ => "number"
  | .str _ => "string"
  | .boolv _ => "boolean"
  | .undefv => "undefined"
  | .nullv => "object"
  | .funv _ => "function"
  | .objv _ _ => "object"

/-- `Object.prototype.hasOwnProperty.call(o, k)` on an object's field list. -/
def hasOwnProp (fields : List (String × JV)) (k : String) : Bool :=
  fields.any (fun p => p.1 == k)

/-- Property read `o[k]` on an object's field list (`undefined` if absent). -/
def getProp (fields : List (String × JV)) (k : String) : JV :=
  match fields.find? (fun p => p.1 == k) with
  | some p => p.2
  | none => .undefv

/-- `shallowEqual` from the Connect source: `Object.is` short-circuit, then
both arguments must be non-null objects, have equally many own keys, and
agree by `Object.is` on every key of the first. -/
def shallowEqual (a b : JV) : Bool :=
  if jsIs a b then true
  else if typeofJV a != "object" || jsIs a .nullv || typeofJV b != "object" || jsIs b .nullv then
    false
  else
    match a, b with
    | .objv _ fa, .objv _ fb =>
      if fa.length != fb.length then false
      else fa.all (fun p => hasOwnProp fb p.1 && jsIs (getProp fa p.1) (getProp fb p.1))
    | _, _ => false

/-- The shallow-equality relation exactly as the spec words it: the two values
are identical by reference/value identity, or both are non-null objects with
the same number of own enumerable keys and, for every own enumerable key of
the first, the second has that own key with an identical value. -/
def specShallowEqual (a b : JV) : Prop :=
  jsIs a b = true ∨
  match a, b with
  | .objv _ fa, .objv _ fb =>
    fa.length = fb.length ∧
    ∀ p ∈ fa, hasOwnProp fb p.1 = true ∧ jsIs p.2 (getProp fb p.1) = true
  | _, _ => False

/-! ## Observable traces of store operations -/

/-- One operation a client can perform against the store's public surface. -/
inductive StoreOp where
  | opDispatch (a : Act)
  | opGetState
  | opSubscribe (l : Nat)
  | opUnsubscribe (l : Nat)
deriving DecidableEq

/-- What a client observes from one operation. -/
inductive Obs (σ : Type) where
  | obsState (s : σ)
  | obsDispatch (r : DRes σ) (notified : List Nat)
  | obsUnit
deriving DecidableEq

/-- Run one operation against the store. -/
def stepOp {σ : Type} (mw : MWVal) (red : σ → Act → σ) (st : St σ) : StoreOp → Obs σ × St σ
  | .opDispatch a =>
    let d := dispatch mw red st a
    (.obsDispatch d.ret d.notified, d.store)
  | .opGetState => (.obsState (getState st), st)
  | .opSubscribe l => (.obsUnit, subscribe st l)
  | .opUnsubscribe l => (.obsUnit, unSubscribe st l)

/-- Run a sequence of operations, collecting the observations. -/
def runOps {σ : Type} (mw : MWVal) (red : σ → Act → σ) (st : St σ) :
    List StoreOp → List (Obs σ) × St σ
  | [] => ([], st)
  | op :: rest =>
    let s := stepOp mw red st op
    let r := runOps mw red s.2 rest
    (s.1 :: r.1, r.2)

/-- Top-level key distinctness of a compared value: a JavaScript object never
has two own properties with the same name. -/
def jvWellFormed : JV → Prop
  | .objv _ f => (f.map Prod.fst).Nodup
  | .num _ => True
  | .str _ => True
  | .boolv _ => True
  | .undefv => True
  | .nullv => True
  | .funv _ => True

instance jvWellFormedDec (v : JV) : Decidable (jvWellFormed v) :=
  match v with
  | .objv _ f => List.nodupDecidable (f.map Prod.fst)
  | .num _ => isTrue trivial
  | .str _ => isTrue trivial
  | .boolv _ => isTrue trivial
  | .undefv => isTrue trivial
  | .nullv => isTrue trivial
  | .funv _ => isTrue trivial

/-- Whether every inner dispatch of a thunk carries a defined `type`. -/
def allTyped (cmds : List (Option String × Nat)) : Bool :=
  cmds.all (fun c => c.1.isSome)

/-- A slice reducer used in concrete instantiations: increment, with default
slice value `0`. -/
def incReducer : Option Int → Nat → Option Int :=
  fun s _ => some (s.getD 0 + 1)

/-- A slice reducer used in concrete instantiations: identity. -/
def idReducer : Option Int → Nat → Option Int :=
  fun s _ => s

/-- A concrete reducer mapping for instantiations. -/
def sampleReducers : List (String × (Option Int → Nat → Option Int)) :=
  [("a", incReducer), ("b", idReducer)]

/-- A concrete state object for instantiations: slice `a` present, `b`
absent. -/
def sampleState : JSObj Int :=
  ⟨0, [("a", some 5)]⟩

/-- A concrete store reducer for instantiations: counts `{type:'X'}`
actions. -/
def counterReducer : Int → Act → Int :=
  fun s a => if a = Act.obj (some "X") 1 then s + 1 else s

/-! ## Helper lemmas -/

theorem findKeySpec {β : Type} (l : List (String × β)) (k : String) (v : β)
    (hnd : (l.map Prod.fst).Nodup) (hp : (k, v) ∈ l) :
    l.find? (fun q => q.1 == k) = some (k, v) := by
  induction l with
  | nil => exact absurd hp (List.not_mem_nil (k, v))
  | cons q rest ih =>
    simp only [List.map_cons, List.nodup_cons] at hnd
    rcases List.mem_cons.mp hp with h | h
    · rw [← h]
      simp [List.find?]
    · have hq : (q.1 == k) = false := by
        refine beq_eq_false_iff_ne.mpr ?_
        intro he
        have : k ∈ rest.map Prod.fst := List.mem_map_of_mem Prod.fst h
        exact hnd.1 (he ▸ this)
      rw [List.find?_cons_of_neg _ (by simp [hq]), ih hnd.2 h]

theorem getProp_eq_of_mem (fa : List (String × JV)) (p : String × JV)
    (hnd : (fa.map Prod.fst).Nodup) (hp : p ∈ fa) :
    getProp fa p.1 = p.2 := by
  unfold getProp
  rw [findKeySpec fa p.1 p.2 hnd hp]

theorem readField_of_not_hasField {V : Type} (o : JSObj V) (k : String)
    (h : hasField o k = false) : readField o k = none := by
  unfold readField
  rw [List.find?_eq_none.mpr]
  intro q hq
  simp only [hasField, List.any_eq_false] at h
  simpa using h q hq

/-! ## Claims -/

/-- C1: dispatching a plain object action with a defined `type` computes
`newState = reducer(currentState, action)`, replaces the current state with it
(so a subsequent `getState()` returns it), invokes every registered listener
in subscription order, leaves the listener list unchanged, passes the action
to the reducer exactly once, and returns the original action object. -/
theorem dispatch_plain_action_spec {σ : Type} (mw : MWVal) (red : σ → Act → σ)
    (st : St σ) (t : String) (i : Nat) :
    (dispatch mw red st (Act.obj (some t) i)).store.currentState
        = red st.currentState (Act.obj (some t) i) ∧
    getState (dispatch mw red st (Act.obj (some t) i)).store
        = red st.currentState (Act.obj (some t) i) ∧
    (dispatch mw red st (Act.obj (some t) i)).notified = st.listeners ∧
    (dispatch mw red st (Act.obj (some t) i)).store.listeners = st.listeners ∧
    (dispatch mw red st (Act.obj (some t) i)).reducerCalls
        = [(st.currentState, Act.obj (some t) i)] ∧
    (dispatch mw red st (Act.obj (some t) i)).ret
        = DRes.ok (DispatchRet.retAction (Act.obj (some t) i)) :=
  ⟨rfl, rfl, rfl, rfl, rfl, rfl⟩

/-- C4: `createStore` dispatches `{type:'@INIT'}` exactly once through the
plain path before returning: afterwards `getState()` equals
`reducer(initialState, {type:'@INIT'})`, the reducer has been invoked exactly
once (with the initial state and the init action), no listener was notified
(none could be registered yet), and the listener list starts empty. -/
theorem createStore_init_spec {σ : Type} (mw : MWVal) (red : σ → Act → σ) (s0 : σ) :
    (createStore mw red s0).store.currentState = red s0 initAction ∧
    getState (createStore mw red s0).store = red s0 initAction ∧
    (createStore mw red s0).store.listeners = [] ∧
    (createStore mw red s0).reducerCalls = [(s0, initAction)] ∧
    (createStore mw red s0).notified = [] ∧
    (createStore mw red s0).ret = DRes.ok (DispatchRet.retAction initAction) :=
  ⟨rfl, rfl, rfl, rfl, rfl, rfl⟩

/-- C9: `typeof null === 'object'`, so dispatching `null` passes the shape
check and raises neither `InvalidActionShape` nor `MissingActionType`; it
fails with a host-level `TypeError` when `action.type` is read off `null`,
and the store is unchanged with no listener invoked. -/
theorem dispatch_null_spec {σ : Type} (mw : MWVal) (red : σ → Act → σ) (st : St σ) :
    typeofAct Act.nullv = "object" ∧
    (dispatch mw red st Act.nullv).ret = DRes.thrown Err.typeError ∧
    (dispatch mw red st Act.nullv).ret ≠ DRes.thrown Err.invalidActionShape ∧
    (dispatch mw red st Act.nullv).ret ≠ DRes.thrown Err.missingActionType ∧
    (dispatch mw red st Act.nullv).store = st ∧
    (dispatch mw red st Act.nullv).notified = [] ∧
    (dispatch mw red st Act.nullv).reducerCalls = [] := by
  refine ⟨rfl, rfl, ?_, ?_, rfl, rfl, rfl⟩ <;> simp [dispatch, dispatchPlain]

/-- C7 counterexample: `subscribe` is a plain `push` with no deduplication, so
subscribing the same listener (identity tag `5`) twice and then dispatching a
plain action invokes that listener twice, not at most once. -/
theorem subscribe_duplicate_cex :
    (dispatch MWVal.undefv (fun (s : Int) (_ : Act) => s)
        (subscribe (subscribe ⟨0, []⟩ 5) 5) (Act.obj (some "A") 0)).notified.count 5 = 2 := by
  decide

/-- C7 amended: the listener list is an insertion-ordered list without set
semantics: `subscribe` always appends one occurrence, a plain-action dispatch
invokes a listener once per occurrence it has in the list, and the
unsubscribe closure removes every occurrence of its listener. -/
theorem listener_list_multiset_spec {σ : Type} (mw : MWVal) (red : σ → Act → σ)
    (st : St σ) (l : Nat) (t : String) (i : Nat) :
    (subscribe st l).listeners = st.listeners ++ [l] ∧
    (dispatch mw red st (Act.obj (some t) i)).notified.count l = st.listeners.count l ∧
    (unSubscribe st l).listeners.count l = 0 := by
  refine ⟨rfl, rfl, ?_⟩
  rw [List.count_eq_zero]
  intro hmem
  have := List.of_mem_filter hmem
  simp at this

/-- C2 counterexample: with no middleware configured, dispatching a function
action raises `InvalidActionShape` even though the action is a function, so
the error is not raised "exactly when the action is neither a function nor an
object". -/
theorem dispatch_function_no_middleware_cex :
    typeofAct (Act.fn ⟨[], false⟩) = "function" ∧
    (dispatch MWVal.undefv (fun (s : Int) (_ : Act) => s) ⟨0, []⟩ (Act.fn ⟨[], false⟩)).ret
        = DRes.thrown Err.invalidActionShape :=
  ⟨rfl, rfl⟩

/-- C2 amended: `dispatch` raises `InvalidActionShape` exactly when
`typeof action` is not `'object'` (for a non-function action this means
neither object nor `null`; a function action without middleware also raises
it, per the counterexample); for non-function actions it raises
`MissingActionType` exactly when the action is a non-null object whose `type`
is `undefined`; and whenever a non-function dispatch throws, the state is
unchanged, no listener is invoked and the reducer is not called. -/
theorem dispatch_error_conditions_amended {σ : Type} (mw : MWVal) (red : σ → Act → σ)
    (st : St σ) (a : Act) (hfn : typeofAct a ≠ "function") :
    ((dispatch mw red st a).ret = DRes.thrown Err.invalidActionShape ↔ typeofAct a ≠ "object") ∧
    ((dispatch mw red st a).ret = DRes.thrown Err.missingActionType ↔ ∃ i, a = Act.obj none i) ∧
    (∀ e, (dispatch mw red st a).ret = DRes.thrown e →
      (dispatch mw red st a).store = st ∧ (dispatch mw red st a).notified = [] ∧
      (dispatch mw red st a).reducerCalls = []) := by
  cases a with
  | obj t i => cases t <;> simp [dispatch, dispatchPlain, typeofAct]
  | nullv => simp [dispatch, dispatchPlain, typeofAct]
  | fn b => exact absurd rfl hfn
  | prim tag => cases tag <;> simp [dispatch, dispatchPlain, typeofAct, PrimTag.name]

/-- C2 witness: the amended characterisation instantiated at a numeric
primitive action dispatched without middleware. -/
theorem dispatch_error_conditions_amended_witness :
    typeofAct (Act.prim PrimTag.number) ≠ "function" ∧
    ((dispatch MWVal.undefv (fun (s : Int) (_ : Act) => s) ⟨0, []⟩ (Act.prim PrimTag.number)).ret
        = DRes.thrown Err.invalidActionShape ↔ typeofAct (Act.prim PrimTag.number) ≠ "object") :=
  ⟨by decide,
    (dispatch_error_conditions_amended MWVal.undefv (fun s _ => s) ⟨0, []⟩
      (Act.prim PrimTag.number) (by decide)).1⟩

/-- C6: `subscribe(listener)` appends the listener to the ordered list; the
returned unsubscribe closure removes exactly that listener (by identity) and
is idempotent; after subscribing a fresh listener, a plain-action dispatch
invokes the listeners in subscription order and that listener exactly once;
and a listener unsubscribed before a dispatch is not invoked by it. -/
theorem subscribe_unsubscribe_spec {σ : Type} (mw : MWVal) (red : σ → Act → σ)
    (st : St σ) (l : Nat) (t : String) (i : Nat) (hl : l ∉ st.listeners) :
    (subscribe st l).listeners = st.listeners ++ [l] ∧
    unSubscribe (subscribe st l) l = st ∧
    (∀ st' : St σ, unSubscribe (unSubscribe st' l) l = unSubscribe st' l) ∧
    (dispatch mw red (subscribe st l) (Act.obj (some t) i)).notified
        = st.listeners ++ [l] ∧
    (dispatch mw red (subscribe st l) (Act.obj (some t) i)).notified.count l = 1 ∧
    l ∉ (dispatch mw red (unSubscribe st l) (Act.obj (some t) i)).notified := by
  refine ⟨rfl, ?_, ?_, rfl, ?_, ?_⟩
  · obtain ⟨s, ls⟩ := st
    simp only [unSubscribe, subscribe]
    congr 1
    rw [List.filter_append]
    have h1 : ls.filter (fun item => item != l) = ls :=
      List.filter_eq_self.mpr (fun a ha => by
        simp only [ne_eq, bne_iff_ne]
        intro he
        exact hl (he ▸ ha))
    simp [h1]
  · intro st'
    obtain ⟨s, ls⟩ := st'
    simp only [unSubscribe]
    congr 1
    exact List.filter_eq_self.mpr (fun a ha => (List.mem_filter.mp ha).2)
  · show ((subscribe st l).listeners).count l = 1
    rw [subscribe, List.count_append]
    rw [List.count_eq_zero.mpr hl]
    simp
  · show l ∉ (unSubscribe st l).listeners
    intro hmem
    have := List.of_mem_filter hmem
    simp at this

/-- C6 witness: the subscription facts instantiated with listener `3` on a
store already holding listeners `1` and `2`. -/
theorem subscribe_unsubscribe_spec_witness :
    (3 : Nat) ∉ [1, 2] ∧
    (dispatch MWVal.undefv (fun (s : Int) (_ : Act) => s)
        (subscribe ⟨0, [1, 2]⟩ 3) (Act.obj (some "A") 0)).notified = [1, 2] ++ [3] :=
  ⟨by decide,
    (subscribe_unsubscribe_spec MWVal.undefv (fun s _ => s) ⟨0, [1, 2]⟩ 3 "A" 0
      (by decide)).2.2.2.1⟩

/-- C3: the reducer built by `combineReducers` returns, on every call, a
freshly allocated mapping whose entry for each slice name `n` of the reducer
table is `reducers[n](state[n], action)`; a slice absent from the input state
has its reducer invoked with `undefined`; and two successive calls return
reference-distinct objects even if their entries are equal. -/
theorem combineReducers_spec {V A : Type}
    (reducers : List (String × (Option V → A → Option V)))
    (state state' : JSObj V) (action action' : A) (alloc : Nat)
    (hnd : (reducers.map Prod.fst).Nodup) :
    (∀ p ∈ reducers,
      readField (combineReducers reducers state action alloc).1 p.1
        = p.2 (readField state p.1) action) ∧
    (∀ p ∈ reducers, hasField state p.1 = false →
      readField (combineReducers reducers state action alloc).1 p.1 = p.2 none action) ∧
    (combineReducers reducers state action alloc).1.ref = alloc ∧
    (combineReducers reducers state action alloc).2 = alloc + 1 ∧
    (combineReducers reducers state' action'
        (combineReducers reducers state action alloc).2).1.ref
      ≠ (combineReducers reducers state action alloc).1.ref := by
  have hmain : ∀ p ∈ reducers,
      readField (combineReducers reducers state action alloc).1 p.1
        = p.2 (readField state p.1) action := by
    intro p hp
    have hnd' : (((combineReducers reducers state action alloc).1.fields).map Prod.fst).Nodup := by
      simpa [combineReducers, List.map_map, Function.comp] using hnd
    have hmem : (p.1, p.2 (readField state p.1) action)
        ∈ (combineReducers reducers state action alloc).1.fields := by
      simp only [combineReducers]
      exact List.mem_map_of_mem (fun q => (q.1, q.2 (readField state q.1) action)) hp
    have hfind := findKeySpec _ p.1 (p.2 (readField state p.1) action) hnd' hmem
    unfold readField
    rw [hfind]
    rfl
  refine ⟨hmain, ?_, rfl, rfl, by simp [combineReducers]⟩
  intro p hp habs
  rw [hmain p hp, readField_of_not_hasField state p.1 habs]

/-- C3 witness: the composed reducer instantiated on a two-slice table where
slice `a` is present with value `5` and slice `b` is absent: the fresh object
holds `incReducer (some 5) 7` at `a`, and the absent slice's reducer is
invoked with `undefined`. -/
theorem combineReducers_spec_witness :
    (sampleReducers.map Prod.fst).Nodup ∧
    hasField sampleState "b" = false ∧
    readField (combineReducers sampleReducers sampleState 7 0).1 "a"
        = incReducer (readField sampleState "a") 7 ∧
    readField (combineReducers sampleReducers sampleState 7 0).1 "b" = idReducer none 7 :=
  ⟨by decide, by decide,
    (combineReducers_spec sampleReducers sampleState sampleState 7 7 0 (by decide)).1
      ("a", incReducer) (by simp [sampleReducers]),
    (combineReducers_spec sampleReducers sampleState sampleState 7 7 0 (by decide)).2.1
      ("b", idReducer) (by simp [sampleReducers]) (by decide)⟩

theorem runCmds_all_typed {σ : Type} (red : σ → Act → σ) (st : St σ)
    (cmds : List (Option String × Nat)) (h : allTyped cmds = true) :
    (runCmds red st cmds).1 = none ∧
    (runCmds red st cmds).2.store.currentState
      = cmds.foldl (fun s c => red s (Act.obj c.1 c.2)) st.currentState ∧
    (runCmds red st cmds).2.store.listeners = st.listeners ∧
    (runCmds red st cmds).2.reducerCalls.length = cmds.length ∧
    (∀ q ∈ (runCmds red st cmds).2.reducerCalls, ∃ u i, q.2 = Act.obj (some u) i) := by
  induction cmds generalizing st with
  | nil => simp [runCmds]
  | cons c rest ih =>
    obtain ⟨t, i⟩ := c
    cases t with
    | none => simp [allTyped] at h
    | some u =>
      have hrest : allTyped rest = true := by
        simp only [allTyped, List.all_cons, Bool.and_eq_true] at h
        exact h.2
      have hi := ih (⟨red st.currentState (Act.obj (some u) i), st.listeners⟩ : St σ) hrest
      refine ⟨?_, ?_, ?_, ?_, ?_⟩
      · simpa [runCmds, dispatchPlain] using hi.1
      · simpa [runCmds, dispatchPlain] using hi.2.1
      · simpa [runCmds, dispatchPlain] using hi.2.2.1
      · simpa [runCmds, dispatchPlain] using hi.2.2.2.1
      · intro q hq
        simp only [runCmds, dispatchPlain, List.cons_append, List.nil_append,
          List.mem_cons] at hq
        rcases hq with hq | hq
        · exact ⟨u, i, by rw [hq]⟩
        · exact hi.2.2.2.2 q hq

/-- C5: with a truthy middleware configured, dispatching a function action
runs the function with `(dispatch, getState)` and returns its result
directly: the resulting state is exactly the fold of the function's own inner
dispatches (the outer call itself changes nothing else), the listener list is
untouched, the reducer runs once per inner dispatch and only ever receives
plain object actions — never the function action itself — and the returned
value is the function's own return value. -/
theorem dispatch_function_middleware_spec {σ : Type} (mw : MWVal) (red : σ → Act → σ)
    (st : St σ) (b : ThunkBody) (hmw : truthy mw = true)
    (hb : allTyped b.dispatches = true) :
    (dispatch mw red st (Act.fn b)).store.currentState
      = b.dispatches.foldl (fun s c => red s (Act.obj c.1 c.2)) st.currentState ∧
    (dispatch mw red st (Act.fn b)).store.listeners = st.listeners ∧
    (dispatch mw red st (Act.fn b)).reducerCalls.length = b.dispatches.length ∧
    (∀ q ∈ (dispatch mw red st (Act.fn b)).reducerCalls, ∃ u i, q.2 = Act.obj (some u) i) ∧
    (dispatch mw red st (Act.fn b)).ret
      = DRes.ok (if b.returnState then
          DispatchRet.retState ((dispatch mw red st (Act.fn b)).store.currentState)
        else DispatchRet.retUndef) := by
  have hrun := runCmds_all_typed red st b.dispatches hb
  have hd : dispatch mw red st (Act.fn b)
      = ⟨(runCmds red st b.dispatches).2.store, (runCmds red st b.dispatches).2.notified,
          (runCmds red st b.dispatches).2.reducerCalls,
          DRes.ok (if b.returnState then
            DispatchRet.retState (runCmds red st b.dispatches).2.store.currentState
          else DispatchRet.retUndef)⟩ := by
    simp [dispatch, hmw, hrun.1]
  rw [hd]
  exact ⟨hrun.2.1, hrun.2.2.1, hrun.2.2.2.1, hrun.2.2.2.2, rfl⟩

/-- C5 witness: a thunk that dispatches `{type:'X'}` once, run with a truthy
(function-valued) middleware over the counting reducer: the state advances to
`1` and the reducer ran exactly once. -/
theorem dispatch_function_middleware_spec_witness :
    truthy (MWVal.funv 0) = true ∧
    allTyped [(some "X", 1)] = true ∧
    (dispatch (MWVal.funv 0) counterReducer ⟨0, [7]⟩
        (Act.fn ⟨[(some "X", 1)], false⟩)).store.currentState = 1 ∧
    (dispatch (MWVal.funv 0) counterReducer ⟨0, [7]⟩
        (Act.fn ⟨[(some "X", 1)], false⟩)).reducerCalls.length = 1 :=
  ⟨rfl, rfl,
    (dispatch_function_middleware_spec (MWVal.funv 0) counterReducer ⟨0, [7]⟩
      ⟨[(some "X", 1)], false⟩ rfl rfl).1,
    (dispatch_function_middleware_spec (MWVal.funv 0) counterReducer ⟨0, [7]⟩
      ⟨[(some "X", 1)], false⟩ rfl rfl).2.2.1⟩

theorem dispatch_truthy_congr {σ : Type} (mw1 mw2 : MWVal) (red : σ → Act → σ)
    (st : St σ) (a : Act) (h : truthy mw1 = truthy mw2) :
    dispatch mw1 red st a = dispatch mw2 red st a := by
  cases a <;> simp [dispatch, h]

/-- C10: the middleware value is only consulted for truthiness, never invoked:
two stores built with the same reducer and initial state but any two truthy
middleware values produce identical observations and identical final states
under every sequence of dispatch, getState, subscribe and unsubscribe
operations. -/
theorem middleware_truthiness_equiv {σ : Type} (mw1 mw2 : MWVal) (red : σ → Act → σ)
    (st : St σ) (ops : List StoreOp) (h1 : truthy mw1 = true) (h2 : truthy mw2 = true) :
    runOps mw1 red st ops = runOps mw2 red st ops := by
  induction ops generalizing st with
  | nil => rfl
  | cons op rest ih =>
    have hstep : stepOp mw1 red st op = stepOp mw2 red st op := by
      cases op with
      | opDispatch a => simp [stepOp, dispatch_truthy_congr mw1 mw2 red st a (h1.trans h2.symm)]
      | opGetState => rfl
      | opSubscribe l => rfl
      | opUnsubscribe l => rfl
    simp only [runOps, hstep, ih]

/-- C10 witness: a boolean-true middleware and a non-empty-string middleware
are observationally equivalent over a trace that subscribes, dispatches a
plain action, reads the state and dispatches a thunk. -/
theorem middleware_truthiness_equiv_witness :
    truthy (MWVal.boolv true) = true ∧
    truthy (MWVal.strv "log") = true ∧
    runOps (MWVal.boolv true) counterReducer ⟨0, []⟩
        [StoreOp.opSubscribe 3, StoreOp.opDispatch (Act.obj (some "X") 1),
          StoreOp.opGetState, StoreOp.opDispatch (Act.fn ⟨[(some "X", 1)], true⟩)]
      = runOps (MWVal.strv "log") counterReducer ⟨0, []⟩
        [StoreOp.opSubscribe 3, StoreOp.opDispatch (Act.obj (some "X") 1),
          StoreOp.opGetState, StoreOp.opDispatch (Act.fn ⟨[(some "X", 1)], true⟩)] :=
  ⟨rfl, rfl,
    middleware_truthiness_equiv (MWVal.boolv true) (MWVal.strv "log") counterReducer ⟨0, []⟩
      [StoreOp.opSubscribe 3, StoreOp.opDispatch (Act.obj (some "X") 1),
        StoreOp.opGetState, StoreOp.opDispatch (Act.fn ⟨[(some "X", 1)], true⟩)] rfl rfl⟩

theorem shallowEqual_obj_case (ra rb : Nat) (fa fb : List (String × JV))
    (hnd : (fa.map Prod.fst).Nodup) (hrefs : (ra == rb) = false) :
    shallowEqual (JV.objv ra fa) (JV.objv rb fb) = true ↔
      (fa.length = fb.length ∧
        ∀ p ∈ fa, hasOwnProp fb p.1 = true ∧ jsIs p.2 (getProp fb p.1) = true) := by
  unfold shallowEqual
  rw [if_neg (by simp [jsIs, hrefs])]
  rw [if_neg (by simp [typeofJV, jsIs])]
  show (if fa.length != fb.length then false
      else fa.all (fun p => hasOwnProp fb p.1 && jsIs (getProp fa p.1) (getProp fb p.1)))
    = true ↔ _
  by_cases hlen : fa.length = fb.length
  · rw [if_neg (by simp [hlen])]
    rw [List.all_eq_true]
    constructor
    · intro hall
      refine ⟨hlen, fun p hp => ?_⟩
      have h2 := hall p hp
      simp only [Bool.and_eq_true] at h2
      rw [getProp_eq_of_mem fa p hnd hp] at h2
      exact h2
    · rintro ⟨-, hall⟩ p hp
      simp only [Bool.and_eq_true]
      rw [getProp_eq_of_mem fa p hnd hp]
      exact hall p hp
  · rw [if_pos (by simp [hlen])]
    simp [hlen]

/-- C8: the shallow-equality predicate of the Binding Adapter returns `true`
exactly when the two values are identical by reference/value identity
(`Object.is`), or both are non-null objects with the same number of own
enumerable keys where every own enumerable key of the first is an own key of
the second holding an identical value; only top-level identity is compared,
so nothing below the first level is inspected. -/
theorem shallowEqual_spec (a b : JV) (ha : jvWellFormed a) (hb : jvWellFormed b) :
    shallowEqual a b = true ↔ specShallowEqual a b := by
  by_cases hid : jsIs a b = true
  · constructor
    · intro _
      exact Or.inl hid
    · intro _
      simp [shallowEqual, hid]
  · have hid' : jsIs a b = false := by rwa [Bool.not_eq_true] at hid
    cases a with
    | objv ra fa =>
      cases b with
      | num m => simp [shallowEqual, specShallowEqual, jsIs, typeofJV]
      | str s => simp [shallowEqual, specShallowEqual, jsIs, typeofJV]
      | boolv bb => simp [shallowEqual, specShallowEqual, jsIs, typeofJV]
      | undefv => simp [shallowEqual, specShallowEqual, jsIs, typeofJV]
      | nullv => simp [shallowEqual, specShallowEqual, jsIs, typeofJV]
      | funv rf => simp [shallowEqual, specShallowEqual, jsIs, typeofJV]
      | objv rb fb =>
        have hrefs : (ra == rb) = false := by simpa [jsIs] using hid'
        rw [shallowEqual_obj_case ra rb fa fb ha hrefs]
        unfold specShallowEqual
        simp [jsIs, hrefs]
    | num n => cases b <;> simp_all [shallowEqual, specShallowEqual, jsIs, typeofJV]
    | str s => cases b <;> simp_all [shallowEqual, specShallowEqual, jsIs, typeofJV]
    | boolv bb => cases b <;> simp_all [shallowEqual, specShallowEqual, jsIs, typeofJV]
    | undefv => cases b <;> simp_all [shallowEqual, specShallowEqual, jsIs, typeofJV]
    | nullv => cases b <;> simp_all [shallowEqual, specShallowEqual, jsIs, typeofJV]
    | funv rf => cases b <;> simp_all [shallowEqual, specShallowEqual, jsIs, typeofJV]

/-- C8 witness: two reference-distinct objects with the same keys in a
different order and identical values are shallow-equal, and the
characterisation applies to them. -/
theorem shallowEqual_spec_witness :
    jvWellFormed (JV.objv 1 [("x", JV.num 5), ("y", JV.str "h")]) ∧
    jvWellFormed (JV.objv 2 [("y", JV.str "h"), ("x", JV.num 5)]) ∧
    shallowEqual (JV.objv 1 [("x", JV.num 5), ("y", JV.str "h")])
        (JV.objv 2 [("y", JV.str "h"), ("x", JV.num 5)]) = true ∧
    (shallowEqual (JV.objv 1 [("x", JV.num 5), ("y", JV.str "h")])
        (JV.objv 2 [("y", JV.str "h"), ("x", JV.num 5)]) = true ↔
      specShallowEqual (JV.objv 1 [("x", JV.num 5), ("y", JV.str "h")])
        (JV.objv 2 [("y", JV.str "h"), ("x", JV.num 5)])) :=
  ⟨by decide, by decide, by decide,
    shallowEqual_spec (JV.objv 1 [("x", JV.num 5), ("y", JV.str "h")])
      (JV.objv 2 [("y", JV.str "h"), ("x", JV.num 5)]) (by decide) (by decide)⟩

end CustomRedux
